import Mathlib

/-!
Verification of the sniproxy core (`proxy.go`) against its specification.

The Go source is shallowly embedded:
* IPv4 addresses are natural numbers below 2^32; `net.IPNet` becomes `Subnet`
  (a masked base address plus a CIDR prefix length, `Mask.Size` = `ones`).
* `clientAllowed` is translated loop-by-loop (the mutable `cidr` accumulator
  becomes a fold, the early-returning deny loop becomes `List.any`).
* Hostname matchers, route matching, the alert emitter, the dispatcher and the
  listener are embedded further below.
-/

namespace Sniproxy

/-- A byte is modelled as a natural number (well-formed data keeps it < 256). -/
abbrev Byte := Nat

/-! ## Access controller (`clientAllowed`, proxy.go lines 190-214) -/

/-- An IPv4 CIDR subnet: the base address together with the prefix length
(`ones`), as produced by `net.ParseCIDR`.  `Go`'s `Mask.Size()` returns
`ones` for such canonical masks. -/
structure Subnet where
  base : Nat
  ones : Nat
deriving DecidableEq, Repr

/-- The numeric value of a CIDR netmask with `ones` leading one bits
(e.g. `maskBits 8 = 0xFF000000`). -/
def maskBits (ones : Nat) : Nat := 2 ^ 32 - 2 ^ (32 - ones)

/-- `net.IPNet.Contains`: mask the candidate address and compare it with the
(masked) network address. -/
def Subnet.Contains (s : Subnet) (ip : Nat) : Bool :=
  Nat.land ip (maskBits s.ones) == Nat.land s.base (maskBits s.ones)

/-- `config.SendProxy` mode: none, PROXY protocol v1 or v2. -/
inductive SendProxyMode where
  | none
  | v1
  | v2
deriving DecidableEq, Repr

/-! ## Hostname matchers -/

/-- Modelled from the spec: the compiled hostname matchers of a route live in
the configuration loader, which is not part of the core sources.  Per the spec
their "pattern semantics" is a "regular-expression match against the SNI
string" that is a "full-string match, not substring", so a matcher is a
regular expression over characters. -/
inductive Regex where
  | void
  | eps
  | char (c : Char)
  | any
  | alt (a b : Regex)
  | cat (a b : Regex)
  | star (a : Regex)
deriving DecidableEq, Repr

/-- Whether a regular expression accepts the empty string. -/
def Regex.nullable : Regex → Bool
  | .void => false
  | .eps => true
  | .char _ => false
  | .any => false
  | .alt a b => a.nullable || b.nullable
  | .cat a b => a.nullable && b.nullable
  | .star _ => true

/-- Brzozowski derivative of a regular expression by one character. -/
def Regex.deriv : Regex → Char → Regex
  | .void, _ => .void
  | .eps, _ => .void
  | .char c, d => if c = d then .eps else .void
  | .any, _ => .eps
  | .alt a b, d => .alt (a.deriv d) (b.deriv d)
  | .cat a b, d =>
      if a.nullable then .alt ((a.deriv d).cat b) (b.deriv d)
      else (a.deriv d).cat b
  | .star a, d => (a.deriv d).cat (.star a)

/-- Full-string regular-expression match: derive by every character of the
hostname, then test nullability.  This matches the ENTIRE string — a regex
matching only a proper substring does not match. -/
def Regex.MatchString (r : Regex) (s : String) : Bool :=
  (s.data.foldl Regex.deriv r).nullable

/-! ## Routes and configuration (`config.Route`, `config.Config`) -/

/-- A configured route: ordered hostname matchers, the backend address, the
PROXY-protocol mode and the allow/deny subnet lists. -/
structure Route where
  Domains : List Regex
  Backend : String
  SendProxy : SendProxyMode
  Allow : List Subnet
  Deny : List Subnet
deriving DecidableEq, Repr

/-- The proxy configuration: an ordered sequence of routes. -/
structure Config where
  Routes : List Route
deriving DecidableEq, Repr

/-! ## `clientAllowed` (proxy.go lines 190-214) -/

/-- Direct translation of `clientAllowed`:
if neither allow nor deny rules exist, permit; otherwise fold the allow list
to find the longest matching prefix (`cidr`, starting at 0), then the deny
loop returns `false` as soon as a containing deny subnet has prefix length
`>= cidr`. -/
def clientAllowed (route : Route) (ip : Nat) : Bool :=
  if route.Allow.isEmpty && route.Deny.isEmpty then
    true
  else
    let cidr : Nat := route.Allow.foldl
      (fun c subnet =>
        if subnet.Contains ip then (if subnet.ones > c then subnet.ones else c)
        else c) 0
    !(route.Deny.any (fun subnet => subnet.Contains ip && decide (subnet.ones ≥ cidr)))

/-! Specification-side restatement of the access policy, following the words
of the spec: longest prefix among containing allow subnets (0 if none), deny
iff some containing deny subnet is at least as specific. -/

/-- The longest prefix length among allow subnets containing the IP, 0 if no
subnet contains it (spec's wording). -/
def bestAllowPrefix (allow : List Subnet) (ip : Nat) : Nat :=
  ((allow.filter (·.Contains ip)).map (·.ones)).foldr max 0

/-- The access-control policy exactly as the spec words it. -/
def specAllowed (route : Route) (ip : Nat) : Bool :=
  if route.Allow.isEmpty && route.Deny.isEmpty then true
  else if route.Deny.any
      (fun s => s.Contains ip && decide (s.ones ≥ bestAllowPrefix route.Allow ip)) then
    false
  else true

/-- 10.0.0.0 -/
def ip10000 : Nat := 10 * 2 ^ 24

/-! ## Route matcher (`Match`, proxy.go lines 173-185) -/

/-- The loop body of `Match`: iterate the routes in declaration order; within
a route iterate its domains in order and return the route on the first domain
matching the SNI (the inner loop's first-match return is `List.any`). -/
def MatchRoutes (routes : List Route) (sni : String) : Except String Route :=
  match routes with
  | [] => .error ("No route matching the requested domain (" ++ sni ++ ")")
  | route :: rest =>
    if route.Domains.any (fun domain => domain.MatchString sni) then .ok route
    else MatchRoutes rest sni

/-- `(*Proxy).Match`: resolve an SNI hostname to the first matching route. -/
def Match (p : Config) (sni : String) : Except String Route :=
  MatchRoutes p.Routes sni

/-! ## Alert emitter (`alert`, proxy.go lines 154-170) -/

/-- The TLS alert record crafted by `alert`: content type 21, version 3.0,
length 2, level fatal (2), then the description byte appended by
`WriteByte`. -/
def alertRecord (desc : Byte) : List Byte := [21, 3, 0, 0, 2, 2] ++ [desc]

/-- Observable actions of the alert emitter. -/
inductive AlertEv where
  | writeClient (record : List Byte)
  | logged
deriving DecidableEq, Repr

/-- `alert`, as a trace of observable actions.  `setWriteDeadlineOk` and
`writeOk` tell whether `SetWriteDeadline` and the socket write succeed.  The
function is total and returns no error: failures only append a log event. -/
def alert (setWriteDeadlineOk writeOk : Bool) (desc : Byte) : List AlertEv :=
  if !setWriteDeadlineOk then [.logged]
  else if writeOk then [.writeClient (alertRecord desc)]
  else [.writeClient (alertRecord desc), .logged]

/-! ## Listener (`ListenAndServe`, proxy.go lines 36-54) -/

/-- Outcome of one `l.Accept()` call. -/
inductive AcceptResult where
  | conn (id : Nat)
  | err (msg : String)
deriving DecidableEq, Repr

/-- The accept loop of `ListenAndServe` over a (finite prefix of a) stream of
accept outcomes: each accepted connection is handed to `dispatchConn` in a
goroutine and accepting resumes immediately; the first accept error ends the
loop and is returned to the caller.  The result is the list of dispatched
connection ids and the returned error (`none` while no accept has failed). -/
def ListenAndServe : List AcceptResult → List Nat × Option String
  | [] => ([], Option.none)
  | .conn c :: rest =>
      let r := ListenAndServe rest
      (c :: r.1, r.2)
  | .err e :: _ => ([], some e)

/-! ## SNI extractor

Modelled from the spec: `extractSNI` itself is not among the core source
files (only its caller `dispatchConn` is), so the parser below follows the
spec's contract: consume exactly the record header and the ClientHello body
of one TLS handshake record, with big-endian numeric fields and every length
validated against the remaining bytes, failing when the record is not a
handshake record, the handshake message is not a ClientHello, the extensions
block is malformed or no `server_name` extension is present; the hostname is
the `host_name` (type 0) entry of the `server_name` (type 0x0000) extension.

`dispatchConn` reads through `io.TeeReader(conn, &buf)`, so the byte source
is modelled as a state that tees every consumed byte into a side buffer. -/

/-- The tee-reader state: bytes consumed so far (the side buffer written by
`io.TeeReader`) and the bytes not yet consumed. -/
structure RState where
  tee : List Byte
  remaining : List Byte
deriving DecidableEq, Repr

/-- Read exactly `n` bytes from the tee reader: the consumed bytes are
appended to the tee buffer and removed from the remaining stream; fails when
fewer than `n` bytes remain. -/
def rread (n : Nat) (s : RState) : Option (List Byte × RState) :=
  if n ≤ s.remaining.length then
    some (s.remaining.take n, ⟨s.tee ++ s.remaining.take n, s.remaining.drop n⟩)
  else Option.none

/-- Read exactly `n` bytes from a plain buffer, returning them and the rest;
fails when the buffer is shorter than `n` (length validation). -/
def readN (n : Nat) (l : List Byte) : Option (List Byte × List Byte) :=
  if n ≤ l.length then some (l.take n, l.drop n) else Option.none

/-- Read one byte from a plain buffer. -/
def read1 : List Byte → Option (Byte × List Byte)
  | [] => Option.none
  | b :: r => some (b, r)

/-- Read a 16-bit big-endian value from a plain buffer. -/
def read2 : List Byte → Option (Nat × List Byte)
  | a :: b :: r => some (a * 256 + b, r)
  | _ => Option.none

/-- Read a 24-bit big-endian value from a plain buffer. -/
def read3 : List Byte → Option (Nat × List Byte)
  | a :: b :: c :: r => some (a * 65536 + b * 256 + c, r)
  | _ => Option.none

/-- Parse the `server_name` extension data: 16-bit server-name-list length
(validated), then the first entry must have type 0 (`host_name`) followed by
the 16-bit hostname length and the hostname bytes. -/
def parseServerName (data : List Byte) : Option (List Byte) :=
  match read2 data with
  | Option.none => Option.none
  | some (listLen, d1) =>
    match readN listLen d1 with
    | Option.none => Option.none
    | some (entries, _) =>
      match read1 entries with
      | Option.none => Option.none
      | some (entryType, e1) =>
        if entryType = 0 then
          match read2 e1 with
          | Option.none => Option.none
          | some (nameLen, e2) =>
            match readN nameLen e2 with
            | Option.none => Option.none
            | some (name, _) => some name
        else Option.none

/-- Walk the extensions block: each extension is a 16-bit type, a 16-bit
data length (validated) and the data; return the parsed `server_name`
extension (type 0) or fail when none is present.  `fuel` bounds the
iteration (each step consumes at least four bytes, so the block's length
suffices). -/
def findSNI : Nat → List Byte → Option (List Byte)
  | 0, _ => Option.none
  | fuel + 1, l =>
    match read2 l with
    | Option.none => Option.none
    | some (extType, r1) =>
      match read2 r1 with
      | Option.none => Option.none
      | some (extLen, r2) =>
        match readN extLen r2 with
        | Option.none => Option.none
        | some (data, rest) =>
          if extType = 0 then parseServerName data
          else findSNI fuel rest

/-- Parse the body of the handshake record: handshake type (must be 1,
ClientHello), 24-bit handshake length (validated), then inside the
ClientHello: 2-byte client version, 32-byte random, session id, cipher
suites, compression methods (each length-prefixed and validated) and the
16-bit-length-prefixed extensions block, searched for `server_name`. -/
def parseBody (l : List Byte) : Option (List Byte) :=
  match read1 l with
  | Option.none => Option.none
  | some (hsType, r1) =>
    if hsType = 1 then
      match read3 r1 with
      | Option.none => Option.none
      | some (hsLen, r2) =>
        match readN hsLen r2 with
        | Option.none => Option.none
        | some (body, _) =>
          match readN 2 body with
          | Option.none => Option.none
          | some (_, b1) =>
            match readN 32 b1 with
            | Option.none => Option.none
            | some (_, b2) =>
              match read1 b2 with
              | Option.none => Option.none
              | some (sidLen, b3) =>
                match readN sidLen b3 with
                | Option.none => Option.none
                | some (_, b4) =>
                  match read2 b4 with
                  | Option.none => Option.none
                  | some (csLen, b5) =>
                    match readN csLen b5 with
                    | Option.none => Option.none
                    | some (_, b6) =>
                      match read1 b6 with
                      | Option.none => Option.none
                      | some (compLen, b7) =>
                        match readN compLen b7 with
                        | Option.none => Option.none
                        | some (_, b8) =>
                          match read2 b8 with
                          | Option.none => Option.none
                          | some (extTotal, b9) =>
                            match readN extTotal b9 with
                            | Option.none => Option.none
                            | some (exts, _) => findSNI exts.length exts
    else Option.none

/-- `extractSNI` over the tee reader: consume the 5-byte record header
(content type must be 22, handshake; 16-bit big-endian record length), then
consume exactly the record body — never more than the single handshake
record — and parse the ClientHello inside it.  Returns the hostname together
with the final reader state (tee buffer and unconsumed stream). -/
def extractSNI (input : List Byte) : Option (List Byte × RState) :=
  match rread 5 ⟨[], input⟩ with
  | Option.none => Option.none
  | some (hdr, s1) =>
    match hdr with
    | [contentType, _, _, l1, l2] =>
      if contentType = 22 then
        match rread (l1 * 256 + l2) s1 with
        | Option.none => Option.none
        | some (body, s2) =>
          match parseBody body with
          | Option.none => Option.none
          | some host => some (host, s2)
      else Option.none
    | _ => Option.none

/-! ## Well-formed ClientHello messages

A structured description of a well-formed TLS ClientHello carrying a
`server_name` extension, with its wire serialization, used to state the
extractor's correctness on all well-formed inputs. -/

/-- A structured ClientHello: the fields surrounding the `server_name`
extension, with the other extensions split into those appearing before and
after it. -/
structure ClientHello where
  random : List Byte
  sessionId : List Byte
  cipherSuites : List Byte
  compression : List Byte
  extsBefore : List (Nat × List Byte)
  hostname : List Byte
  extsAfter : List (Nat × List Byte)
deriving DecidableEq, Repr

/-- 16-bit big-endian encoding. -/
def be2 (n : Nat) : List Byte := [n / 256, n % 256]

/-- 24-bit big-endian encoding. -/
def be3 (n : Nat) : List Byte := [n / 65536, n / 256 % 256, n % 256]

/-- Wire encoding of one (non-SNI) extension: type, data length, data. -/
def encExt (e : Nat × List Byte) : List Byte := be2 e.1 ++ (be2 e.2.length ++ e.2)

/-- The data of the `server_name` extension: server-name-list length, entry
type 0 (`host_name`), hostname length, hostname bytes. -/
def sniExtData (host : List Byte) : List Byte :=
  be2 (host.length + 3) ++ ([0] ++ (be2 host.length ++ host))

/-- The full `server_name` extension: type 0x0000, data length, data. -/
def sniExt (host : List Byte) : List Byte :=
  be2 0 ++ (be2 (sniExtData host).length ++ sniExtData host)

/-- The extensions block: extensions before the SNI one, the SNI extension,
extensions after it. -/
def extBytes (ch : ClientHello) : List Byte :=
  (ch.extsBefore.map encExt).flatten ++
    (sniExt ch.hostname ++ (ch.extsAfter.map encExt).flatten)

/-- The ClientHello message body: client version 3.3, random, session id,
cipher suites, compression methods, extensions block — each variable-length
field preceded by its length. -/
def chInner (ch : ClientHello) : List Byte :=
  [3, 3] ++ (ch.random ++ ([ch.sessionId.length] ++ (ch.sessionId ++
    (be2 ch.cipherSuites.length ++ (ch.cipherSuites ++
    ([ch.compression.length] ++ (ch.compression ++
    (be2 (extBytes ch).length ++ extBytes ch))))))))

/-- The handshake message: type 1 (ClientHello), 24-bit length, body. -/
def chBody (ch : ClientHello) : List Byte :=
  [1] ++ (be3 (chInner ch).length ++ chInner ch)

/-- The full TLS record: content type 22 (handshake), version 3.1, 16-bit
record length, handshake message. -/
def serializeCH (ch : ClientHello) : List Byte :=
  [22, 3, 1] ++ (be2 (chBody ch).length ++ chBody ch)

/-- Well-formedness of a structured ClientHello: every variable-length field
fits its length prefix, every value is a byte, no extension before the
`server_name` one has type 0, and the whole record fits one TLS record. -/
def WellFormedCH (ch : ClientHello) : Prop :=
  ch.random.length = 32 ∧
  ch.sessionId.length < 256 ∧
  ch.cipherSuites.length < 65536 ∧
  ch.compression.length < 256 ∧
  ch.hostname.length + 3 < 65536 ∧
  (extBytes ch).length < 65536 ∧
  (chInner ch).length < 2 ^ 24 ∧
  (chBody ch).length < 65536 ∧
  (∀ b ∈ ch.random, b < 256) ∧
  (∀ b ∈ ch.sessionId, b < 256) ∧
  (∀ b ∈ ch.cipherSuites, b < 256) ∧
  (∀ b ∈ ch.compression, b < 256) ∧
  (∀ b ∈ ch.hostname, b < 256) ∧
  (∀ e ∈ ch.extsBefore, e.1 ≠ 0 ∧ e.1 < 65536 ∧ e.2.length < 65536 ∧ ∀ b ∈ e.2, b < 256) ∧
  (∀ e ∈ ch.extsAfter, e.1 < 65536 ∧ e.2.length < 65536 ∧ ∀ b ∈ e.2, b < 256)

instance (ch : ClientHello) : Decidable (WellFormedCH ch) := by
  unfold WellFormedCH; infer_instance

/-- A sample well-formed ClientHello for `svc.example.com`-style concrete
checks: hostname "a.com". -/
def sampleCH : ClientHello where
  random := List.replicate 32 7
  sessionId := [9]
  cipherSuites := [0, 47]
  compression := [0]
  extsBefore := [(11, [0])]
  hostname := [97, 46, 99, 111, 109]
  extsAfter := [(13, [])]

/-! ## Connection dispatcher (`dispatchConn`, proxy.go lines 56-144)

`dispatchConn` is embedded as a function from the per-connection environment
(the client byte stream, the client IP, the configuration, and the outcomes
of the fallible socket operations) to the ordered trace of its observable
actions.  The function is total — `dispatchConn` "cannot fail" and returns
no error to its caller; every exit path appends the trace of the deferred
`conn.Close()`, and every exit path after a successful dial also appends the
deferred `upstream.Close()`. -/

/-- Go's `string(b)` on the ASCII hostnames of the SNI extension. -/
def toHostString (host : List Byte) : String :=
  String.mk (host.map Char.ofNat)

/-- The per-connection environment: what the connection's world does. -/
structure Env where
  input : List Byte
  clientIP : Nat
  config : Config
  setReadDeadlineOk : Bool
  clearReadDeadlineOk : Bool
  dialOk : Bool
  proxyHeaderOk : Bool
  replayOk : Bool
deriving DecidableEq, Repr

/-- Observable actions of one dispatched connection, in program order. -/
inductive Ev where
  | alertSent (desc : Byte)
  | logErr
  | logDenied (client : Nat) (sni : String) (backend : String)
  | logRouting (sni : String) (backend : String)
  | dialAttempt (backend : String)
  | dialSuccess
  | proxyHeaderWrite
  | writeUpstream (bs : List Byte)
  | relayStart
  | relayWait
  | closeUpstream
  | closeClient
deriving DecidableEq, Repr

/-- The replay of the sniffed bytes (`io.Copy(upstream, &buf)`) followed by
the two relay goroutines and the `WaitGroup` wait. -/
def replayAndRelay (env : Env) (sni : String) (route : Route) (buf : List Byte) : List Ev :=
  if !env.replayOk then [.alertSent 80, .logErr]
  else [.writeUpstream buf, .logRouting sni route.Backend, .relayStart, .relayWait]

/-- The steps of `dispatchConn` after a successful dial: optional PROXY
header, then replay and relay. -/
def afterDial (env : Env) (sni : String) (route : Route) (buf : List Byte) : List Ev :=
  if route.SendProxy ≠ SendProxyMode.none then
    if !env.proxyHeaderOk then [.alertSent 80, .logErr]
    else .proxyHeaderWrite :: replayAndRelay env sni route buf
  else replayAndRelay env sni route buf

/-- `dispatchConn` up to (but not including) the deferred `conn.Close()`:
set the handshake read deadline, sniff the SNI through the tee reader, clear
the deadline, resolve the route, authorize the client, dial the backend
(the deferred `upstream.Close()` scopes over everything after a successful
dial), send the PROXY header if configured, replay the sniffed bytes and
relay.  Each failure sends an alert, logs and exits. -/
def dispatchInner (env : Env) : List Ev :=
  if !env.setReadDeadlineOk then [.alertSent 80, .logErr]
  else match extractSNI env.input with
  | Option.none => [.alertSent 80, .logErr]
  | some (host, st) =>
    let sni := toHostString host
    if !env.clearReadDeadlineOk then [.alertSent 80, .logErr]
    else match Match env.config sni with
    | .error _ => [.alertSent 112, .logErr]
    | .ok route =>
      if !clientAllowed route env.clientIP then
        [.alertSent 49, .logDenied env.clientIP sni route.Backend]
      else if !env.dialOk then [.dialAttempt route.Backend, .alertSent 80, .logErr]
      else [.dialAttempt route.Backend, .dialSuccess] ++
        (afterDial env sni route st.tee ++ [.closeUpstream])

/-- The whole of `dispatchConn`: the deferred `conn.Close()` runs on every
exit path. -/
def dispatchConn (env : Env) : List Ev := dispatchInner env ++ [.closeClient]

/-! ## Concrete fixtures for the claims' example scenarios -/

/-- Route with allow=[10.0.0.0/8] and deny=[10.1.0.0/16]. -/
def routeAllow8Deny16 : Route := ⟨[], "backend1", .none, [⟨ip10000, 8⟩], [⟨ip10000 + 2 ^ 16, 16⟩]⟩

/-- Route with allow=[10.0.0.0/8] and deny=[10.0.0.0/8] (equal specificity). -/
def routeAllow8Deny8 : Route := ⟨[], "backend2", .none, [⟨ip10000, 8⟩], [⟨ip10000, 8⟩]⟩

/-- Route with empty allow and deny lists (filtering disabled). -/
def routeNoFilter : Route := ⟨[], "backend3", .none, [], []⟩

/-- Route with a non-empty allow list and an empty deny list. -/
def routeAllowOnly : Route := ⟨[], "backend4", .none, [⟨ip10000, 8⟩], []⟩

/-- The literal regex for the hostname "a.com". -/
def regexACom : Regex :=
  .cat (.char 'a') (.cat (.char '.') (.cat (.char 'c') (.cat (.char 'o') (.char 'm'))))

/-- A regex matching every hostname (".*"). -/
def regexAny : Regex := .star .any

/-- Route R1: patterns matching "a.com". -/
def routeACom : Route := ⟨[regexACom], "backendA", .none, [], []⟩

/-- Route R2: patterns matching everything. -/
def routeAny : Route := ⟨[regexAny], "backendB", .none, [], []⟩

/-- Route matching "a.com" whose deny list blocks every client (0.0.0.0/0). -/
def routeDenyAll : Route := ⟨[regexACom], "denybackend", .none, [], [⟨0, 0⟩]⟩

/-- Environment of a connection whose ClientHello requests "a.com" and whose
route denies every client IP. -/
def envDenied : Env := ⟨serializeCH sampleCH, 5, ⟨[routeDenyAll]⟩, true, true, true, true, true⟩

/-- Environment of a fully successful connection for "a.com". -/
def envRouted : Env := ⟨serializeCH sampleCH, 9, ⟨[routeACom]⟩, true, true, true, true, true⟩

/-! ## Supporting lemmas, claim theorems and witnesses -/

theorem allow_foldl_eq_bestAllow (ip : Nat) (l : List Subnet) (c : Nat) :
    l.foldl
      (fun c subnet =>
        if subnet.Contains ip then (if subnet.ones > c then subnet.ones else c)
        else c) c = max c (bestAllowPrefix l ip) := by
  induction l generalizing c with
  | nil => simp [bestAllowPrefix]
  | cons s t ih =>
    cases hs : s.Contains ip with
    | true =>
      simp only [List.foldl_cons, hs, if_true, ih, bestAllowPrefix, List.filter_cons,
        List.map_cons, List.foldr_cons]
      split <;> omega
    | false =>
      simp only [List.foldl_cons, hs, if_false, ih, bestAllowPrefix, List.filter_cons,
        List.map_cons, List.foldr_cons, Bool.false_eq_true]

theorem clientAllowed_eq_specAllowed (route : Route) (ip : Nat) :
    clientAllowed route ip = specAllowed route ip := by
  simp only [clientAllowed, specAllowed]
  split
  · rfl
  · rw [allow_foldl_eq_bestAllow, Nat.zero_max]
    split <;> simp_all

theorem MatchRoutes_eq_find (routes : List Route) (sni : String) :
    MatchRoutes routes sni =
      match routes.find? (fun r => r.Domains.any (fun d => d.MatchString sni)) with
      | some r => .ok r
      | Option.none =>
          .error ("No route matching the requested domain (" ++ sni ++ ")") := by
  induction routes with
  | nil => rfl
  | cons r rest ih =>
    simp only [MatchRoutes, List.find?_cons]
    cases h : r.Domains.any (fun d => d.MatchString sni) with
    | true => simp [h]
    | false => simp [h, ih]

theorem take_append_self (xs ys : List Byte) : (xs ++ ys).take xs.length = xs := by
  induction xs with
  | nil => rfl
  | cons a t ih => simp [ih]

theorem drop_append_self (xs ys : List Byte) : (xs ++ ys).drop xs.length = ys := by
  induction xs with
  | nil => rfl
  | cons a t ih => simp [ih]

theorem readN_exact (n : Nat) (xs ys : List Byte) (h : xs.length = n) :
    readN n (xs ++ ys) = some (xs, ys) := by
  subst h
  unfold readN
  rw [if_pos (by simp), take_append_self, drop_append_self]

theorem readN_all (l : List Byte) (n : Nat) (h : l.length = n) :
    readN n l = some (l, []) := by
  have := readN_exact n l [] h
  simpa using this

theorem rread_exact (t : List Byte) (n : Nat) (xs ys : List Byte) (h : xs.length = n) :
    rread n ⟨t, xs ++ ys⟩ = some (xs, ⟨t ++ xs, ys⟩) := by
  subst h
  unfold rread
  simp only [List.length_append]
  rw [if_pos (by omega), take_append_self, drop_append_self]

theorem rread_inv (n : Nat) (s : RState) (xs : List Byte) (s' : RState)
    (h : rread n s = some (xs, s')) : s'.tee ++ s'.remaining = s.tee ++ s.remaining := by
  unfold rread at h
  split at h
  · cases h
    simp [List.take_append_drop]
  · cases h

theorem be2_val (n : Nat) : n / 256 * 256 + n % 256 = n := by omega

theorem be3_val (n : Nat) : n / 65536 * 65536 + n / 256 % 256 * 256 + n % 256 = n := by
  omega

theorem read2_be2 (n : Nat) (r : List Byte) : read2 (be2 n ++ r) = some (n, r) := by
  simp [be2, read2, be2_val]

theorem read3_be3 (n : Nat) (r : List Byte) : read3 (be3 n ++ r) = some (n, r) := by
  simp [be3, read3, be3_val]

theorem parseServerName_enc (host : List Byte) :
    parseServerName (sniExtData host) = some host := by
  unfold parseServerName sniExtData
  rw [read2_be2]
  simp only []
  rw [readN_all _ _ (by simp [be2])]
  simp only [List.singleton_append, read1]
  rw [if_pos trivial, read2_be2]
  simp only []
  rw [readN_all _ _ rfl]

theorem findSNI_found (host after : List Byte) (fuel : Nat) (h : 0 < fuel) :
    findSNI fuel (sniExt host ++ after) = some host := by
  obtain ⟨f, rfl⟩ : ∃ f, fuel = f + 1 := ⟨fuel - 1, by omega⟩
  unfold findSNI sniExt
  rw [List.append_assoc, read2_be2]
  simp only []
  rw [List.append_assoc, read2_be2]
  simp only []
  rw [readN_exact _ _ _ rfl]
  simp only []
  rw [if_pos trivial, parseServerName_enc]

theorem findSNI_before (before : List (Nat × List Byte)) (host after : List Byte) :
    (∀ e ∈ before, e.1 ≠ 0) → ∀ fuel, before.length < fuel →
    findSNI fuel ((before.map encExt).flatten ++ (sniExt host ++ after)) = some host := by
  induction before with
  | nil =>
    intro _ fuel hf
    simpa using findSNI_found host after fuel (by simpa using hf)
  | cons e es ih =>
    intro hne fuel hf
    obtain ⟨f, rfl⟩ : ∃ f, fuel = f + 1 := ⟨fuel - 1, by omega⟩
    simp only [List.map_cons, List.flatten_cons]
    unfold findSNI encExt
    rw [List.append_assoc, List.append_assoc, read2_be2]
    simp only []
    rw [List.append_assoc, read2_be2]
    simp only []
    rw [readN_exact _ _ _ rfl]
    simp only []
    rw [if_neg (hne e (by simp))]
    exact ih (fun x hx => hne x (by simp [hx])) f (by simpa using Nat.lt_of_succ_lt_succ hf)

theorem length_le_flatten_encExt (l : List (Nat × List Byte)) :
    l.length ≤ ((l.map encExt).flatten).length := by
  induction l with
  | nil => simp
  | cons e es ih =>
    simp only [List.map_cons, List.flatten_cons, List.length_append, List.length_cons]
    have : (encExt e).length = 4 + e.2.length := by simp [encExt, be2]; omega
    omega

theorem parseBody_enc (ch : ClientHello)
    (hr : ch.random.length = 32)
    (hb : ∀ e ∈ ch.extsBefore, e.1 ≠ 0) :
    parseBody (chBody ch) = some ch.hostname := by
  unfold parseBody chBody
  simp only [List.singleton_append, read1]
  rw [if_pos trivial, read3_be3]
  simp only []
  rw [readN_all _ _ rfl]
  simp only []
  unfold chInner
  rw [readN_exact 2 [3, 3] _ rfl]
  simp only []
  rw [readN_exact 32 ch.random _ hr]
  simp only [List.singleton_append, read1]
  rw [readN_exact _ _ _ rfl]
  simp only []
  rw [read2_be2]
  simp only []
  rw [readN_exact _ _ _ rfl]
  simp only [List.singleton_append, read1]
  rw [readN_exact _ _ _ rfl]
  simp only []
  rw [read2_be2]
  simp only []
  rw [readN_all _ _ rfl]
  simp only []
  have hlen : ch.extsBefore.length < (extBytes ch).length := by
    have h1 := length_le_flatten_encExt ch.extsBefore
    simp only [extBytes, List.length_append, sniExt, sniExtData, be2, List.length_cons]
    simp at h1 ⊢
    omega
  calc findSNI (extBytes ch).length (extBytes ch)
      = findSNI (extBytes ch).length
          ((ch.extsBefore.map encExt).flatten ++
            (sniExt ch.hostname ++ (ch.extsAfter.map encExt).flatten)) := by rw [extBytes]
    _ = some ch.hostname :=
        findSNI_before ch.extsBefore ch.hostname (ch.extsAfter.map encExt).flatten hb
          (extBytes ch).length hlen

theorem rread5_hdr (a b c d e : Byte) (rest : List Byte) :
    rread 5 ⟨[], a :: b :: c :: d :: e :: rest⟩ =
      some ([a, b, c, d, e], ⟨[a, b, c, d, e], rest⟩) := by
  unfold rread
  simp

theorem extractSNI_serialize (ch : ClientHello) (extra : List Byte)
    (hr : ch.random.length = 32) (hb : ∀ e ∈ ch.extsBefore, e.1 ≠ 0) :
    extractSNI (serializeCH ch ++ extra) =
      some (ch.hostname, ⟨serializeCH ch, extra⟩) := by
  unfold extractSNI serializeCH
  simp only [be2, List.cons_append, List.nil_append]
  rw [rread5_hdr]
  simp only []
  rw [if_pos trivial, be2_val]
  rw [rread_exact _ _ _ _ rfl]
  simp only []
  rw [parseBody_enc ch hr hb]
  simp [serializeCH, be2]

theorem extractSNI_tee (input host : List Byte) (s : RState)
    (h : extractSNI input = some (host, s)) :
    s.tee ++ s.remaining = input ∧ s.tee = input.take s.tee.length := by
  have hmain : s.tee ++ s.remaining = input := by
    unfold extractSNI at h
    split at h
    · cases h
    rename_i hdr s1 heq1
    split at h
    · rename_i contentType v1 v2 l1 l2
      split at h
      · split at h
        · cases h
        rename_i body s2 heq3
        split at h
        · cases h
        rename_i host2 heq4
        cases h
        have i1 := rread_inv _ _ _ _ heq1
        have i2 := rread_inv _ _ _ _ heq3
        simp only [List.nil_append] at i1
        rw [i2, i1]
      · cases h
    · cases h
  refine ⟨hmain, ?_⟩
  have h2 : input.take s.tee.length = (s.tee ++ s.remaining).take s.tee.length := by
    rw [hmain]
  rw [h2, take_append_self]

/-- C1: for every route and client IP, `clientAllowed` permits when both the
allow and deny lists are empty, and otherwise denies exactly when some deny
subnet containing the IP has prefix length greater than or equal to the
longest prefix length among allow subnets containing the IP (0 when none
contains it); in particular allow=[10.0.0.0/8], deny=[10.1.0.0/16] denies
10.1.2.3; allow=[10.0.0.0/8], deny=[10.0.0.0/8] denies 10.0.0.1; and the
empty route permits every IP. -/
theorem C1_clientAllowed_policy :
    (∀ route ip, clientAllowed route ip = specAllowed route ip) ∧
    clientAllowed routeAllow8Deny16 (ip10000 + 2 ^ 16 + 2 * 256 + 3) = false ∧
    clientAllowed routeAllow8Deny8 (ip10000 + 1) = false ∧
    (∀ ip, clientAllowed routeNoFilter ip = true) :=
  ⟨clientAllowed_eq_specAllowed, by decide, by decide, fun _ => rfl⟩

/-- C10: a route whose allow list is non-empty and whose deny list is empty
permits every client IP, even one contained in no allow subnet: an allow list
alone never blocks a client. -/
theorem C10_allowOnly_permits_all (route : Route) (ip : Nat)
    (h1 : route.Allow ≠ []) (h2 : route.Deny = []) :
    clientAllowed route ip = true := by
  cases hA : route.Allow with
  | nil => exact absurd hA h1
  | cons a t => simp [clientAllowed, h2]

/-- Witness for C10: the allow-only route permits IP 0.0.0.0, which no allow
subnet contains. -/
theorem C10_witness :
    (routeAllowOnly.Allow ≠ [] ∧ routeAllowOnly.Deny = []) ∧
    clientAllowed routeAllowOnly 0 = true :=
  ⟨⟨by decide, rfl⟩, C10_allowOnly_permits_all routeAllowOnly 0 (by decide) rfl⟩

/-- C2: the route matcher selects a route only when one of that route's
matchers matches the entire hostname string; concretely, the "a.com" pattern
matches "a.com" in full, yet the route holding it is not selected for the
hostname "xa.com", of which "a.com" is only a proper substring. -/
theorem C2_match_requires_full_match :
    (∀ routes sni r, MatchRoutes routes sni = .ok r →
        ∃ d ∈ r.Domains, d.MatchString sni = true) ∧
    regexACom.MatchString "a.com" = true ∧
    "xa.com" = "x" ++ "a.com" ∧
    MatchRoutes [routeACom] "xa.com" =
      .error "No route matching the requested domain (xa.com)" := by
  refine ⟨?_, by decide, rfl, rfl⟩
  intro routes sni r h
  induction routes with
  | nil => cases h
  | cons r0 rest ih =>
    unfold MatchRoutes at h
    by_cases h0 : r0.Domains.any (fun domain => domain.MatchString sni) = true
    · rw [if_pos h0] at h
      cases h
      simpa using h0
    · rw [if_neg h0] at h
      exact ih h

/-- Witness for C2: the generic part applied to the concrete route list for
hostname "a.com". -/
theorem C2_witness :
    ∃ d ∈ routeACom.Domains, d.MatchString "a.com" = true :=
  C2_match_requires_full_match.1 [routeACom] "a.com" routeACom rfl

/-- C5: the route matcher tries routes in declaration order and returns the
first route any of whose matchers matches (`List.find?` semantics), with a
"no matching route" error naming the hostname when none does; concretely,
with R1 (matching "a.com") declared before R2 (matching everything),
"a.com" resolves to R1 even though R2 also matches. -/
theorem C5_match_order :
    (∀ routes sni, MatchRoutes routes sni =
        match routes.find? (fun r => r.Domains.any (fun d => d.MatchString sni)) with
        | some r => .ok r
        | Option.none =>
            .error ("No route matching the requested domain (" ++ sni ++ ")")) ∧
    regexAny.MatchString "a.com" = true ∧
    MatchRoutes [routeACom, routeAny] "a.com" = .ok routeACom ∧
    MatchRoutes [] "host.example" =
      .error "No route matching the requested domain (host.example)" :=
  ⟨MatchRoutes_eq_find, by decide, rfl, rfl⟩

/-- C3: for every well-formed ClientHello carrying a `server_name` extension
(and any following bytes), the extractor returns exactly the hostname of
that extension and consumes exactly the serialized record, so the tee buffer
is exactly the record; moreover, whenever the extractor succeeds, the tee
buffer and the unconsumed remainder partition the input and the tee buffer
is byte-for-byte the consumed prefix of the input. -/
theorem C3_extractSNI_hostname_and_tee :
    (∀ ch extra, WellFormedCH ch →
      extractSNI (serializeCH ch ++ extra) =
        some (ch.hostname, ⟨serializeCH ch, extra⟩)) ∧
    (∀ input host s, extractSNI input = some (host, s) →
      s.tee ++ s.remaining = input ∧ s.tee = input.take s.tee.length) := by
  constructor
  · intro ch extra h
    obtain ⟨h1, -, -, -, -, -, -, -, -, -, -, -, -, hb, -⟩ := h
    exact extractSNI_serialize ch extra h1 (fun e he => (hb e he).1)
  · exact extractSNI_tee

/-- Witness for C3: the sample ClientHello for "a.com" followed by two more
stream bytes; the extractor returns the hostname bytes and tees exactly the
serialized record. -/
theorem C3_witness :
    WellFormedCH sampleCH ∧
    extractSNI (serializeCH sampleCH ++ [7, 8]) =
      some (sampleCH.hostname, ⟨serializeCH sampleCH, [7, 8]⟩) :=
  ⟨by decide, C3_extractSNI_hostname_and_tee.1 sampleCH [7, 8] (by decide)⟩

/-- C7: with the write deadline set successfully, the alert emitter writes
exactly the 7-byte record [21, 3, 0, 0, 2, 2, desc] to the client socket —
whether or not the write succeeds — and a write failure only appends a log
event; the emitter returns no error in any case (its type has no error
component). -/
theorem C7_alert_wire_format (desc : Byte) (wOk : Bool) (_hdesc : desc < 256) :
    (alert true wOk desc).head? = some (.writeClient (alertRecord desc)) ∧
    alertRecord desc = [21, 3, 0, 0, 2, 2, desc] ∧
    (alertRecord desc).length = 7 ∧
    (wOk = false → alert true wOk desc = [.writeClient (alertRecord desc), .logged]) := by
  cases wOk <;> simp [alert, alertRecord]

/-- Witness for C7: the access-denied description (49) with a failing
write. -/
theorem C7_witness :
    49 < 256 ∧
    ((alert true false 49).head? = some (.writeClient (alertRecord 49)) ∧
      alertRecord 49 = [21, 3, 0, 0, 2, 2, 49] ∧
      (alertRecord 49).length = 7 ∧
      (false = false → alert true false 49 = [.writeClient (alertRecord 49), .logged])) :=
  ⟨by decide, C7_alert_wire_format 49 false (by decide)⟩

/-- C9: when an accept fails, `ListenAndServe` dispatches exactly the
connections accepted before the failure, never examines the rest of the
stream (the result does not depend on `post`), and returns the accept error
to its caller. -/
theorem C9_accept_error_terminal (cs : List Nat) (e : String) (post : List AcceptResult) :
    ListenAndServe (cs.map AcceptResult.conn ++ AcceptResult.err e :: post) =
      (cs, some e) := by
  induction cs with
  | nil => rfl
  | cons c rest ih => simp [ListenAndServe, ih]

/-- C4: when the sniff and the route match succeed but the access controller
denies the client, the dispatcher's whole trace is the access-denied alert
(description 49), the denial log entry with client IP, hostname and backend,
and the deferred client close — in particular no dial is ever attempted and
no byte is ever written towards the backend. -/
theorem C4_denied_client_never_dials (env : Env) (host : List Byte) (st : RState)
    (route : Route)
    (h1 : env.setReadDeadlineOk = true)
    (h2 : env.clearReadDeadlineOk = true)
    (h3 : extractSNI env.input = some (host, st))
    (h4 : Match env.config (toHostString host) = .ok route)
    (h5 : clientAllowed route env.clientIP = false) :
    dispatchConn env =
      [.alertSent 49, .logDenied env.clientIP (toHostString host) route.Backend,
        .closeClient] ∧
    (∀ b, Ev.dialAttempt b ∉ dispatchConn env) ∧
    (∀ bs, Ev.writeUpstream bs ∉ dispatchConn env) := by
  have htrace : dispatchConn env =
      [.alertSent 49, .logDenied env.clientIP (toHostString host) route.Backend,
        .closeClient] := by
    simp [dispatchConn, dispatchInner, h1, h2, h3, h4, h5]
  exact ⟨htrace, fun b => by simp [htrace], fun bs => by simp [htrace]⟩

/-- Witness for C4: the "a.com" ClientHello against the deny-all route. -/
theorem C4_witness :
    (envDenied.setReadDeadlineOk = true ∧
     envDenied.clearReadDeadlineOk = true ∧
     extractSNI envDenied.input = some (sampleCH.hostname, ⟨serializeCH sampleCH, []⟩) ∧
     Match envDenied.config (toHostString sampleCH.hostname) = .ok routeDenyAll ∧
     clientAllowed routeDenyAll envDenied.clientIP = false) ∧
    dispatchConn envDenied =
      [.alertSent 49, .logDenied envDenied.clientIP (toHostString sampleCH.hostname)
        routeDenyAll.Backend, .closeClient] :=
  ⟨⟨rfl, rfl, by decide, rfl, by decide⟩,
    (C4_denied_client_never_dials envDenied sampleCH.hostname
      ⟨serializeCH sampleCH, []⟩ routeDenyAll rfl rfl (by decide) rfl (by decide)).1⟩

/-- C6: on a connection that reaches the replay step, the dispatcher's trace
writes to the upstream exactly the tee buffer captured while sniffing (which
is byte-for-byte the consumed prefix of the client stream), and the relay
only starts strictly after that write: no relay event and no other upstream
write precedes it. -/
theorem C6_replay_before_relay (env : Env) (host : List Byte) (st : RState)
    (route : Route)
    (h1 : env.setReadDeadlineOk = true)
    (h2 : env.clearReadDeadlineOk = true)
    (h3 : extractSNI env.input = some (host, st))
    (h4 : Match env.config (toHostString host) = .ok route)
    (h5 : clientAllowed route env.clientIP = true)
    (h6 : env.dialOk = true)
    (h7 : env.proxyHeaderOk = true)
    (h8 : env.replayOk = true) :
    ∃ l1 l2, dispatchConn env = l1 ++ Ev.writeUpstream st.tee :: l2 ∧
      Ev.relayStart ∈ l2 ∧
      Ev.relayStart ∉ l1 ∧
      (∀ bs, Ev.writeUpstream bs ∉ l1) ∧
      st.tee = env.input.take st.tee.length := by
  have hval := (extractSNI_tee env.input host st h3).2
  by_cases hsp : route.SendProxy = SendProxyMode.none
  · refine ⟨[.dialAttempt route.Backend, .dialSuccess],
      [.logRouting (toHostString host) route.Backend, .relayStart, .relayWait,
        .closeUpstream, .closeClient], ?_, by simp, by simp, by simp, hval⟩
    simp [dispatchConn, dispatchInner, afterDial, replayAndRelay,
      h1, h2, h3, h4, h5, h6, h8, hsp]
  · refine ⟨[.dialAttempt route.Backend, .dialSuccess, .proxyHeaderWrite],
      [.logRouting (toHostString host) route.Backend, .relayStart, .relayWait,
        .closeUpstream, .closeClient], ?_, by simp, by simp, by simp, hval⟩
    simp [dispatchConn, dispatchInner, afterDial, replayAndRelay,
      h1, h2, h3, h4, h5, h6, h7, h8, hsp]

/-- Witness for C6: the fully successful "a.com" connection. -/
theorem C6_witness :
    (envRouted.setReadDeadlineOk = true ∧
     envRouted.clearReadDeadlineOk = true ∧
     extractSNI envRouted.input = some (sampleCH.hostname, ⟨serializeCH sampleCH, []⟩) ∧
     Match envRouted.config (toHostString sampleCH.hostname) = .ok routeACom ∧
     clientAllowed routeACom envRouted.clientIP = true ∧
     envRouted.dialOk = true ∧ envRouted.proxyHeaderOk = true ∧
     envRouted.replayOk = true) ∧
    (∃ l1 l2, dispatchConn envRouted =
        l1 ++ Ev.writeUpstream (RState.mk (serializeCH sampleCH) []).tee :: l2 ∧
      Ev.relayStart ∈ l2 ∧
      Ev.relayStart ∉ l1 ∧
      (∀ bs, Ev.writeUpstream bs ∉ l1) ∧
      (RState.mk (serializeCH sampleCH) []).tee =
        envRouted.input.take (RState.mk (serializeCH sampleCH) []).tee.length) :=
  ⟨⟨rfl, rfl, by decide, rfl, by decide, rfl, rfl, rfl⟩,
    C6_replay_before_relay envRouted sampleCH.hostname ⟨serializeCH sampleCH, []⟩
      routeACom rfl rfl (by decide) rfl (by decide) rfl rfl rfl⟩

theorem closeClient_not_mem_replayAndRelay (env : Env) (sni : String) (route : Route)
    (buf : List Byte) : Ev.closeClient ∉ replayAndRelay env sni route buf := by
  unfold replayAndRelay
  split <;> simp

theorem closeClient_not_mem_afterDial (env : Env) (sni : String) (route : Route)
    (buf : List Byte) : Ev.closeClient ∉ afterDial env sni route buf := by
  unfold afterDial
  split
  · split
    · simp
    · simp [closeClient_not_mem_replayAndRelay]
  · exact closeClient_not_mem_replayAndRelay env sni route buf

theorem closeClient_not_mem_inner (env : Env) : Ev.closeClient ∉ dispatchInner env := by
  simp only [dispatchInner]
  repeat' split
  all_goals simp [closeClient_not_mem_afterDial]

theorem dial_closes_upstream (env : Env) :
    Ev.dialSuccess ∈ dispatchInner env → Ev.closeUpstream ∈ dispatchInner env := by
  simp only [dispatchInner]
  repeat' split
  all_goals simp

/-- C8: the dispatcher is a total function into traces (it propagates no
error to its caller), and on every exit path the trace ends with the single
deferred client-socket close; whenever the dial succeeded, the upstream
socket is closed as well before the client close. -/
theorem C8_every_exit_closes_sockets (env : Env) :
    ∃ l, dispatchConn env = l ++ [Ev.closeClient] ∧
      Ev.closeClient ∉ l ∧
      (Ev.dialSuccess ∈ l → Ev.closeUpstream ∈ l) :=
  ⟨dispatchInner env, rfl, closeClient_not_mem_inner env, dial_closes_upstream env⟩

/-- Witness for C8 (the implication inside the statement discharged at a
concrete environment): the denied connection's trace. -/
theorem C8_witness :
    ∃ l, dispatchConn envDenied = l ++ [Ev.closeClient] ∧
      Ev.closeClient ∉ l ∧
      (Ev.dialSuccess ∈ l → Ev.closeUpstream ∈ l) :=
  C8_every_exit_closes_sockets envDenied

end Sniproxy
